import Mathlib

/-!
Shallow embedding of the Miles credit-card tool layer
(`data_storage.py` and `tools.py`) and proofs about its
name-resolution, search, benefit-matching and transfer-graph logic.

Python strings are modelled as `List Char` (`Str`), with the string
operations the source uses (`lower`, `strip`, `split`, substring `in`)
re-implemented structurally so that every definition is executable and
kernel-reducible.  Python's stable `list.sort(key=..., reverse=True)` is
modelled by a stable descending insertion sort (`sortDesc`), which computes
the same function.  Python floats that the code only compares, adds and
multiplies are modelled as rationals.  Presentation-only f-strings
(`summary`, `bonus_percentage`, `effective_ratio`) are modelled by their
numeric content.  JSON dictionaries are modelled as records with `Option`
fields (`none` = key absent) mirroring each `dict.get` in the source.
-/

namespace Miles

/-- Python strings, modelled as lists of characters. -/
abbrev Str := List Char

/-- Python `str.lower` on one character (ASCII semantics, as all data here is ASCII). -/
def pyToLowerChar (c : Char) : Char :=
  if 'A' ≤ c ∧ c ≤ 'Z' then Char.ofNat (c.toNat + 32) else c

/-- Python `str.lower` (ASCII). -/
def pyLower (s : Str) : Str := s.map pyToLowerChar

/-- Python whitespace characters recognised by `str.strip` and `str.split` (ASCII). -/
def pyIsSpace (c : Char) : Bool :=
  c = ' ' || c = '\t' || c = '\n' || c = '\r' || c = '\x0b' || c = '\x0c'

/-- Python `str.strip()`. -/
def pyStrip (s : Str) : Str :=
  ((s.dropWhile pyIsSpace).reverse.dropWhile pyIsSpace).reverse

/-- Whether `n` occurs at the start of `h`. -/
def startsList (n h : Str) : Bool :=
  match n, h with
  | [], _ => true
  | _ :: _, [] => false
  | a :: as, b :: bs => a = b && startsList as bs

/-- Python substring containment `n in h`. -/
def pyIn (n h : Str) : Bool :=
  startsList n h ||
    match h with
    | [] => false
    | _ :: t => pyIn n t

/-- Python `str.split()` with no argument: whitespace-separated words, no empties. -/
def pyWords (s : Str) : List Str :=
  (s.foldr
    (fun c acc =>
      if pyIsSpace c then [] :: acc
      else
        match acc with
        | [] => [[c]]
        | w :: ws => (c :: w) :: ws)
    []).filter (fun w => w ≠ [])

/-- Python `str.split("/")`. -/
def splitSlash : Str → List Str
  | [] => [[]]
  | c :: cs =>
    let r := splitSlash cs
    if c = '/' then [] :: r
    else
      match r with
      | [] => [[c]]
      | h :: t => (c :: h) :: t

/-- Stable insertion of `a` into a descending-sorted list: `a` goes in front of the
first element whose key is not larger.  Together with `sortDesc` this computes
Python's stable `list.sort(key=key, reverse=True)`. -/
def insDesc {α : Type _} {β : Type _} [LinearOrder β] (key : α → β) (a : α) : List α → List α
  | [] => [a]
  | b :: bs => if key a < key b then b :: insDesc key a bs else a :: b :: bs

/-- Stable descending sort by `key`, modelling Python `list.sort(key=key, reverse=True)`. -/
def sortDesc {α : Type _} {β : Type _} [LinearOrder β] (key : α → β) : List α → List α
  | [] => []
  | a :: as => insDesc key a (sortDesc key as)

/-- Digit string to number (caller guarantees all digits). -/
def natOfDigits (s : Str) : Nat := s.foldl (fun a c => a * 10 + (c.toNat - 48)) 0

/-- Whether `s` is a non-empty run of ASCII digits. -/
def allDigits (s : Str) : Bool := !s.isEmpty && s.all Char.isDigit

/-- Gregorian leap-year test, as `datetime` uses. -/
def isLeapYear (y : ℤ) : Bool := y % 4 = 0 && (y % 100 ≠ 0 || y % 400 = 0)

/-- Number of days in month `m` of year `y`. -/
def daysInMonth (y : ℤ) (m : Nat) : Nat :=
  if m = 2 then (if isLeapYear y then 29 else 28)
  else if m = 4 ∨ m = 6 ∨ m = 9 ∨ m = 11 then 30
  else 31

/-- Days since 1970-01-01 of a civil date (standard days-from-civil algorithm). -/
def daysFromCivil (y : ℤ) (m d : Nat) : ℤ :=
  let yy : ℤ := if m ≤ 2 then y - 1 else y
  let era : ℤ := yy.fdiv 400
  let yoe : ℤ := yy - era * 400
  let mp : ℤ := if 2 < m then (m : ℤ) - 3 else (m : ℤ) + 9
  let doy : ℤ := (153 * mp + 2).fdiv 5 + (d : ℤ) - 1
  let doe : ℤ := yoe * 365 + yoe.fdiv 4 - yoe.fdiv 100 + doy
  era * 146097 + doe - 719468

/-- Model of `datetime.strptime(s, "%m/%d/%y")`: month and day are 1-2 digit
fields, the year exactly 2 digits (pivot 69: `00`-`68` is 20xx, `69`-`99` is 19xx),
all validated; the result is the parsed day as a day number (the parsed
`datetime` is midnight of that day). -/
def parseMMDDYY (s : Str) : Option ℤ :=
  match splitSlash s with
  | [ms, ds, ys] =>
    if allDigits ms && ms.length ≤ 2 && allDigits ds && ds.length ≤ 2
        && allDigits ys && ys.length = 2 then
      let m := natOfDigits ms
      let d := natOfDigits ds
      let yy := natOfDigits ys
      let y : ℤ := if yy ≤ 68 then 2000 + yy else 1900 + yy
      if 1 ≤ m ∧ m ≤ 12 ∧ 1 ≤ d ∧ d ≤ daysInMonth y m then some (daysFromCivil y m d)
      else none
    else none
  | _ => none

/-- The single-quote character, as Python `repr` uses around strings. -/
def squoteC : Char := Char.ofNat 39

/-- Opening curly brace character. -/
def lbraceC : Char := Char.ofNat 123

/-- Closing curly brace character. -/
def rbraceC : Char := Char.ofNat 125

/-- Join string pieces with `", "`, as Python `str(dict)` does between items. -/
def commaSpaceJoin : List Str → Str
  | [] => []
  | [s] => s
  | s :: rest => s ++ ", ".toList ++ commaSpaceJoin rest

/-- One entry of a `reward_multipliers` array (`multiplier.get("category")`). -/
structure RewardMult where
  category : Option Str := none
deriving DecidableEq

/-- One entry of `benefits.credits` (`credit.get("type")`). -/
structure CreditBenefit where
  ctype : Option Str := none
deriving DecidableEq

/-- One entry of `benefits.lounge` (`lounge.get("type")`). -/
structure LoungeBenefit where
  ltype : Option Str := none
deriving DecidableEq

/-- One protection entry (`prot.get("type")`, `prot.get("description")`). -/
structure Protection where
  ptype : Option Str := none
  description : Option Str := none
deriving DecidableEq

/-- The `benefits.protections` mapping with its three fixed categories. -/
structure Protections where
  purchaseProtections : List Protection := []
  travelProtections : List Protection := []
  insuranceProtections : List Protection := []
deriving DecidableEq

/-- One elite-status entry: a JSON object whose keys (when present) are
`program`, `tier`, `description`, in that insertion order. -/
structure StatusEntry where
  program : Option Str := none
  tier : Option Str := none
  description : Option Str := none
deriving DecidableEq

/-- The `benefits.status` mapping with its four fixed categories. -/
structure StatusTable where
  hotelEliteStatus : List StatusEntry := []
  airlineEliteStatus : List StatusEntry := []
  rentalCarEliteStatus : List StatusEntry := []
  otherEliteStatus : List StatusEntry := []
deriving DecidableEq

/-- The four elite-status category keys the code enumerates. -/
inductive StatusCategory where
  | hotel
  | airline
  | rentalCar
  | other
deriving DecidableEq

/-- Model of `status.get(category, [])`. -/
def statusGet (st : StatusTable) : StatusCategory → List StatusEntry
  | .hotel => st.hotelEliteStatus
  | .airline => st.airlineEliteStatus
  | .rentalCar => st.rentalCarEliteStatus
  | .other => st.otherEliteStatus

/-- The fixed order in which the code iterates the status categories. -/
def allStatusCategories : List StatusCategory :=
  [.hotel, .airline, .rentalCar, .other]

/-- The `benefits` object of a card (`card.get("benefits", {})`). -/
structure Benefits where
  credits : List CreditBenefit := []
  lounge : List LoungeBenefit := []
  other : List Str := []
  protections : Protections := {}
  status : StatusTable := {}
deriving DecidableEq

/-- One catalog entry, with `none` meaning the JSON key is absent. -/
structure Card where
  cardName : Option Str := none
  issuer : Option Str := none
  rewardsCurrency : Option Str := none
  annualFee : Option Str := none
  cardType : Option Str := none
  foreignTransactionFee : Option Str := none
  fmMiniReview : Option Str := none
  lastUpdated : Option Str := none
  lastUpdatedUtc : Option Str := none
  rewardMultipliers : List RewardMult := []
  benefits : Benefits := {}
deriving DecidableEq

/-! ### NameResolver: `data_storage.get_credit_card_by_name` -/

/-- Python dict assignment `d[k] = v`: update in place if the key exists,
else append, preserving key insertion order. -/
def dictInsert (k : Str) (v : Card) : List (Str × Card) → List (Str × Card)
  | [] => [(k, v)]
  | (k0, v0) :: rest =>
    if k0 = k then (k0, v) :: rest else (k0, v0) :: dictInsert k v rest

/-- Python dict access `d[k]` (exact key). -/
def dictGet (k : Str) : List (Str × Card) → Option Card
  | [] => none
  | (k0, v0) :: rest => if k0 = k then some v0 else dictGet k rest

/-- The dict-comprehension loop over the card list, carrying the dict built so
far: cards whose `card_name` is missing or empty are skipped. -/
def buildCardLookupAux (d : List (Str × Card)) : List Card → List (Str × Card)
  | [] => d
  | c :: rest =>
    match c.cardName with
    | some n =>
      if n = [] then buildCardLookupAux d rest
      else buildCardLookupAux (dictInsert n c d) rest
    | none => buildCardLookupAux d rest

/-- The comprehension `{card.get("card_name", ""): card for card in cards if card.get("card_name")}`:
cards whose `card_name` is missing or empty are skipped; on duplicate names the
last card wins while the key keeps its first position. -/
def buildCardLookup (cards : List Card) : List (Str × Card) :=
  buildCardLookupAux [] cards

/-- The exact-match fast path: first dict key whose lowercase form equals the
lowered, stripped query. -/
def findExactMatch (ql : Str) : List (Str × Card) → Option Card
  | [] => none
  | (n, c) :: rest => if pyLower n = ql then some c else findExactMatch ql rest

/-- The maximum-scoring candidate, first-seen winning ties, as
`rapidfuzz.process.extractOne` selects it. -/
def bestCandidate (sc : Str → ℚ) (names : List Str) : Option (Str × ℚ) :=
  names.foldl
    (fun acc n =>
      match acc with
      | none => some (n, sc n)
      | some (m, s) => if sc n > s then some (n, sc n) else some (m, s))
    none

/-- Model of `process.extractOne(query, names, scorer, score_cutoff)`: the best
candidate, accepted only when its score reaches the cutoff. -/
def extractOne (sc : Str → ℚ) (cutoff : ℚ) (names : List Str) : Option Str :=
  match bestCandidate sc names with
  | some (m, s) => if s ≥ cutoff then some m else none
  | none => none

/-- Model of `data_storage.get_credit_card_by_name`, with the RapidFuzz `WRatio`
scorer abstracted as a parameter `sc` (the claims hold for any scorer) and the
`FUZZY_MATCH_THRESHOLD` as `threshold`. -/
def getCreditCardByName (sc : Str → Str → ℚ) (threshold : ℚ)
    (cards : List Card) (query : Str) : Option Card :=
  if cards = [] then none
  else
    match findExactMatch (pyStrip (pyLower query)) (buildCardLookup cards) with
    | some c => some c
    | none =>
      match extractOne (sc query) threshold ((buildCardLookup cards).map Prod.fst) with
      | some m => dictGet m (buildCardLookup cards)
      | none => none

/-- Whether a card has a non-empty canonical name whose lowercase form equals `ql`:
the condition for the exact-match fast path to be able to hit it. -/
def nameMatches (ql : Str) (c : Card) : Bool :=
  match c.cardName with
  | some nm => !nm.isEmpty && pyLower nm = ql
  | none => false

/-! ### CardCatalogSearch: `tools.credit_card_search` -/

/-- One search result entry (the fields the code copies, plus score and reasons). -/
structure SearchResult where
  cardName : Option Str := none
  issuer : Option Str := none
  rewardsCurrency : Option Str := none
  annualFee : Option Str := none
  cardType : Option Str := none
  score : Nat := 0
  matchReasons : List Str := []
deriving DecidableEq

/-- Outcome of `credit_card_search`: a validation error, or the results object
with `total_results` and the echoed query. -/
inductive SearchOutcome where
  | error (msg : Str)
  | ok (results : List SearchResult) (totalResults : Nat) (query : Str)
deriving DecidableEq

/-- Python f-string interpolation of an optional string (`None` prints as `"None"`). -/
def optStrRepr : Option Str → Str
  | some s => s
  | none => "None".toList

/-- The accumulation of score and match reasons for one card, in source order. -/
def scoreCard (ql : Str) (c : Card) : Nat × List Str :=
  let s0 : Nat × List Str := (0, [])
  let s1 := if pyIn ql (pyLower (c.cardName.getD [])) then
      (s0.1 + 10, s0.2 ++ ["Card name match".toList]) else s0
  let s2 := if pyIn ql (pyLower (c.issuer.getD [])) then
      (s1.1 + 5, s1.2 ++ ["Issuer match".toList]) else s1
  let s3 := if pyIn ql (pyLower (c.rewardsCurrency.getD [])) then
      (s2.1 + 3, s2.2 ++ ["Rewards currency match".toList]) else s2
  let s4 := c.rewardMultipliers.foldl
    (fun acc m =>
      if pyIn ql (pyLower (m.category.getD [])) then
        (acc.1 + 2, acc.2 ++ ["Category: ".toList ++ optStrRepr m.category])
      else acc) s3
  let s5 := c.benefits.credits.foldl
    (fun acc cr =>
      if pyIn ql (pyLower (cr.ctype.getD [])) then
        (acc.1 + 2, acc.2 ++ ["Credit: ".toList ++ optStrRepr cr.ctype])
      else acc) s4
  let s6 := c.benefits.lounge.foldl
    (fun acc lg =>
      if pyIn ql (pyLower (lg.ltype.getD [])) then
        (acc.1 + 2, acc.2 ++ ["Lounge: ".toList ++ optStrRepr lg.ltype])
      else acc) s5
  if pyIn ql (pyLower (c.cardType.getD [])) then
    (s6.1 + 3, s6.2 ++ ["Card type match".toList])
  else s6

/-- The match list before ranking: cards with positive score, in catalog order,
each carrying its first three match reasons. -/
def searchMatches (ql : Str) (cards : List Card) : List SearchResult :=
  cards.filterMap
    (fun c =>
      let sr := scoreCard ql c
      if sr.1 > 0 then
        some { cardName := c.cardName, issuer := c.issuer,
               rewardsCurrency := c.rewardsCurrency, annualFee := c.annualFee,
               cardType := c.cardType, score := sr.1,
               matchReasons := sr.2.take 3 }
      else none)

/-- The ranked match list: stable sort by score, descending. -/
def rankedMatches (ql : Str) (cards : List Card) : List SearchResult :=
  sortDesc (fun r => r.score) (searchMatches ql cards)

/-- The `recently_updated` pre-filter: keep a card only when `last_updated` is a
non-empty string that parses as `MM/DD/YY` to a date not before `now - n` days.
`now` is the current time in days since the epoch (fractional part = time of day,
as `datetime.now()` carries one; parsed card dates are midnights). -/
def filterRecent (now : ℚ) (n : ℤ) (cards : List Card) : List Card :=
  cards.filter
    (fun c =>
      match c.lastUpdated with
      | none => false
      | some s =>
        !s.isEmpty &&
          match parseMMDDYY s with
          | some d => decide ((d : ℚ) ≥ now - (n : ℚ))
          | none => false)

/-- The cap `if max_results > 50: max_results = 50` (the `< 1` case is rejected
earlier as a validation error). -/
def clampMax (mr : ℤ) : ℤ := if mr > 50 then 50 else mr

/-- The successful tail of `credit_card_search`: rank the matches over the
(possibly pre-filtered) card list and truncate to the capped `max_results`. -/
def searchOk (query : Str) (mr : ℤ) (cs : List Card) : SearchOutcome :=
  .ok ((rankedMatches (pyLower query) cs).take (clampMax mr).toNat)
    ((rankedMatches (pyLower query) cs).take (clampMax mr).toNat).length query

/-- Model of `tools.credit_card_search` (its input validation, `recently_updated`
filtering, scoring, ranking and truncation). -/
def creditCardSearch (cards : List Card) (now : ℚ) (query : Str)
    (maxResults : ℤ) (recentlyUpdated : Option ℤ) : SearchOutcome :=
  if query = [] then .error "Invalid query: must be a non-empty string".toList
  else if query.length > 500 then .error "Query too long (max 500 characters)".toList
  else if maxResults < 1 then .error "max_results must be a positive integer".toList
  else
    match recentlyUpdated with
    | some n =>
      if n < 1 then .error "recently_updated must be a positive integer".toList
      else searchOk query maxResults (filterRecent now n cards)
    | none => searchOk query maxResults cards

/-! ### BenefitMatcher: `tools.benefits_search` -/

/-- The `category_keywords` map of the elite-status stage. -/
def categoryKeyword (w : Str) : Option StatusCategory :=
  if w = "hotel".toList then some .hotel
  else if w = "airline".toList then some .airline
  else if w = "rental".toList then some .rentalCar
  else if w = "car".toList then some .rentalCar
  else none

/-- Python `str(stat)` for a status entry: the dict repr with keys in insertion
order `program`, `tier`, `description`, only present keys shown. -/
def pyStrEntry (e : StatusEntry) : Str :=
  let fields : List (Str × Str) :=
    (match e.program with
     | some p => [("program".toList, p)]
     | none => [])
    ++ (match e.tier with
        | some t => [("tier".toList, t)]
        | none => [])
    ++ (match e.description with
        | some d => [("description".toList, d)]
        | none => [])
  [lbraceC]
    ++ commaSpaceJoin
        (fields.map (fun kv =>
          (squoteC :: kv.1 ++ [squoteC]) ++ ": ".toList ++ (squoteC :: kv.2 ++ [squoteC])))
    ++ [rbraceC]

/-- The concatenation `f"{program} {tier} {description}".lower()` used against the
remaining keywords. -/
def statText (e : StatusEntry) : Str :=
  pyLower (e.program.getD [] ++ [' '] ++ e.tier.getD [] ++ [' '] ++ e.description.getD [])

/-- The `target_categories` list: query words that name a status category, in
order, duplicates kept. -/
def queryTargets (ql : Str) : List StatusCategory :=
  (pyWords ql).filterMap categoryKeyword

/-- The `remaining_words` list: query words that neither name a category nor are
the structural words `"elite"`/`"status"`. -/
def queryRemaining (ql : Str) : List Str :=
  (pyWords ql).filter
    (fun w => (categoryKeyword w).isNone
      && !(w = "elite".toList) && !(w = "status".toList))

/-- The elite-status stage of `benefits_search` (reached when no earlier benefit
field matched): category-aware matching over the structured status data. -/
def statusStage (ql : Str) (st : StatusTable) : Bool :=
  if !(queryTargets ql).isEmpty then
    (queryTargets ql).any (fun cat => !(statusGet st cat).isEmpty)
  else if (pyWords ql).any (fun w => w = "status".toList || w = "elite".toList) then
    allStatusCategories.any
      (fun cat =>
        if (statusGet st cat).isEmpty then false
        else if !(queryRemaining ql).isEmpty then
          (statusGet st cat).any
            (fun e => (queryRemaining ql).any (fun w => pyIn w (statText e)))
        else true)
  else
    allStatusCategories.any
      (fun cat => (statusGet st cat).any (fun e => pyIn ql (pyLower (pyStrEntry e))))

/-- Whether one card matches a benefits query: the five stages of
`benefits_search`, short-circuiting in source order. -/
def cardBenefitsMatches (ql : Str) (c : Card) : Bool :=
  let b := c.benefits
  (b.credits.any fun cr => pyIn ql (pyLower (cr.ctype.getD [])))
  || (b.lounge.any fun lg => pyIn ql (pyLower (lg.ltype.getD [])))
  || (b.other.any fun o => pyIn ql (pyLower o))
  || ([b.protections.purchaseProtections, b.protections.travelProtections,
       b.protections.insuranceProtections].any fun ps =>
        ps.any fun pr =>
          pyIn ql (pyLower (pr.ptype.getD [])) || pyIn ql (pyLower (pr.description.getD [])))
  || statusStage ql b.status

/-- Outcome of `benefits_search`: a validation error, or the matching cards with
`total_matches` and the echoed query (each per-card result object copies fields
of the matched card, so a match is represented by the card itself). -/
inductive BenefitsOutcome where
  | error (msg : Str)
  | ok (found : List Card) (totalMatches : Nat) (query : Str)
deriving DecidableEq

/-- Model of `tools.benefits_search`: validation, then the matching cards in
catalog order. -/
def benefitsSearch (cards : List Card) (query : Str) : BenefitsOutcome :=
  if query = [] then .error "Invalid query: must be a non-empty string".toList
  else if query.length > 500 then .error "Query too long (max 500 characters)".toList
  else
    let ms := cards.filter (fun c => cardBenefitsMatches (pyLower query) c)
    .ok ms ms.length query

/-! ### TransferGraphResolver: `tools.lookup_transfer_partners` and
`tools.get_transfer_bonuses` -/

/-- A JSON scalar as it appears under the `Bonus` key: a string or a number. -/
inductive JVal where
  | s (v : Str)
  | n (v : ℚ)
deriving DecidableEq

/-- Python truthiness of a `Bonus` value: empty string and zero are falsy. -/
def jvalTruthy : JVal → Bool
  | .s v => !v.isEmpty
  | .n q => q ≠ 0

/-- One edge of the transfer-partner table, with `none` for absent keys. -/
structure TransferPartner where
  loyaltyProgram : Option Str := none
  ratioNum : Option ℚ := none
  best : Option Bool := none
  notes : Option Str := none
  bonus : Option JVal := none
  bonusExpiration : Option Str := none
deriving DecidableEq

/-- The transfer-partner table: source program name to its ordered edge list. -/
abbrev TransferTable := List (Str × List TransferPartner)

/-- The valuation table: normalized program key to cents per point. -/
abbrev ValTable := List (Str × ℚ)

/-- Key normalization `s.lower().replace(" ", "_").replace("-", "_")`. -/
def normalizeKey (s : Str) : Str :=
  (pyLower s).map (fun c => if c = ' ' ∨ c = '-' then '_' else c)

/-- Python `partner.get("Bonus", "")` (absent key defaults to the empty string). -/
def bonusField (p : TransferPartner) : JVal :=
  p.bonus.getD (JVal.s [])

/-- Python `if bonus_exp:` on `partner.get("bonus_expiration")`: keep the value
only when it is a present, non-empty string. -/
def optTruthy : Option Str → Option Str
  | some e => if e.isEmpty then none else some e
  | none => none

/-- One destination entry of the `from` direction, as `lookup_transfer_partners`
builds it (the `summary` f-string is carried by its numeric content
`ratioNum`/`valuation`). -/
structure FromPartnerInfo where
  loyaltyProgram : Str := []
  best : Bool := false
  ratioNum : ℚ := 1
  notes : Str := []
  valuation : ℚ := 1
  bonus : Option JVal := none
  bonusExpiration : Option Str := none
deriving DecidableEq

/-- One source entry of the `to` direction (`sourceValuation` is the numeric
content of its `summary` f-string). -/
structure ToSourceInfo where
  loyaltyProgram : Str := []
  ratioNum : ℚ := 1
  best : Bool := false
  notes : Str := []
  sourceValuation : ℚ := 1
  bonus : Option JVal := none
  bonusExpiration : Option Str := none
deriving DecidableEq

/-- The `if bonus:` attachment: the bonus field carried into a partner entry,
present exactly when the edge's `Bonus` value is truthy. -/
def attachedBonus (p : TransferPartner) : Option JVal :=
  if jvalTruthy (bonusField p) then some (bonusField p) else none

/-- The nested `if bonus: ... if bonus_exp:` attachment of `bonus_expiration`. -/
def attachedExp (p : TransferPartner) : Option Str :=
  if jvalTruthy (bonusField p) then optTruthy p.bonusExpiration else none

/-- Build one `from`-direction partner entry, attaching the destination valuation
(normalized-key lookup, default 1.0) and the bonus fields only when the bonus
value is truthy. -/
def mkFromInfo (vt : ValTable) (p : TransferPartner) : FromPartnerInfo :=
  { loyaltyProgram := p.loyaltyProgram.getD []
    best := p.best.getD false
    ratioNum := p.ratioNum.getD 1
    notes := p.notes.getD []
    valuation := (vt.lookup (normalizeKey (p.loyaltyProgram.getD []))).getD 1
    bonus := attachedBonus p
    bonusExpiration := attachedExp p }

/-- Build one `to`-direction source entry for source program `srcKey`. -/
def mkToInfo (vt : ValTable) (srcKey : Str) (p : TransferPartner) : ToSourceInfo :=
  { loyaltyProgram := srcKey
    ratioNum := p.ratioNum.getD 1
    best := p.best.getD false
    notes := p.notes.getD []
    sourceValuation := (vt.lookup (normalizeKey srcKey)).getD 1
    bonus := attachedBonus p
    bonusExpiration := attachedExp p }

/-- The first table key containing the lowered query as a substring, with its
edge list — the `from`-direction program search. -/
def findFromProgram (ql : Str) : TransferTable → Option (Str × List TransferPartner)
  | [] => none
  | (k, ps) :: rest => if pyIn ql (pyLower k) then some (k, ps) else findFromProgram ql rest

/-- The `to`-direction accumulation loop, exactly as the source nests it:
iterate programs in table order, edges in list order, appending matches. -/
def collectToSources (vt : ValTable) (ql : Str) (table : TransferTable) : List ToSourceInfo :=
  table.foldl
    (fun acc e =>
      e.2.foldl
        (fun acc2 p =>
          if pyIn ql (pyLower (p.loyaltyProgram.getD [])) then acc2 ++ [mkToInfo vt e.1 p]
          else acc2)
        acc)
    []

/-- Outcome of `lookup_transfer_partners`: a validation error, a `from_program`
result, a `to_program` result, or the explicit no-results marker carrying the
original query. -/
inductive TransferResult where
  | error (msg : Str)
  | fromProgram (sourceProgram : Str) (destPrograms : List FromPartnerInfo)
  | toProgram (destProgram : Str) (valuation : ℚ) (sourcePrograms : List ToSourceInfo)
  | notFound (programName : Str)
deriving DecidableEq

/-- Model of `tools.lookup_transfer_partners`. -/
def lookupTransferPartners (table : TransferTable) (vt : ValTable)
    (programName : Str) (direction : Str) : TransferResult :=
  if programName = [] then .error "Invalid program name: must be a non-empty string".toList
  else if programName.length > 200 then .error "Program name too long (max 200 characters)".toList
  else if direction ≠ "from".toList ∧ direction ≠ "to".toList then
    .error "Invalid direction: must be from or to".toList
  else
    let ql := pyLower programName
    if direction = "from".toList then
      match findFromProgram ql table with
      | some kps =>
        .fromProgram kps.1 (sortDesc (fun i => i.valuation) (kps.2.map (mkFromInfo vt)))
      | none => .notFound programName
    else
      let sources := collectToSources vt ql table
      if sources = [] then .notFound programName
      else .toProgram programName ((vt.lookup (normalizeKey programName)).getD 1) sources

/-- One entry of the `get_transfer_bonuses` output (`bonus_percentage` and
`effective_ratio` are carried by their numeric content). -/
structure BonusInfo where
  fromProgram : Str := []
  toProgram : Str := []
  bonusMultiplier : ℚ := 1
  bonusPercentage : ℚ := 0
  normalRatioNum : ℚ := 1
  effectiveRatioNum : ℚ := 1
  notes : Str := []
  bonusExpiration : Option Str := none
deriving DecidableEq

/-- The bonus-filter of `get_transfer_bonuses`: reject a missing bonus, the
sentinels `"None"`/`"Varies"`, any other non-number, and multipliers ≤ 1.0. -/
def acceptedBonus (p : TransferPartner) : Option ℚ :=
  match p.bonus with
  | none => none
  | some b =>
    if b = JVal.s "None".toList ∨ b = JVal.s "Varies".toList then none
    else
      match b with
      | .s _ => none
      | .n q => if q ≤ 1 then none else some q

/-- Build one bonus entry from an accepted edge. -/
def mkBonusInfo (src : Str) (p : TransferPartner) (q : ℚ) : BonusInfo :=
  { fromProgram := src
    toProgram := p.loyaltyProgram.getD []
    bonusMultiplier := q
    bonusPercentage := (q - 1) * 100
    normalRatioNum := p.ratioNum.getD 1
    effectiveRatioNum := q * p.ratioNum.getD 1
    notes := p.notes.getD []
    bonusExpiration := optTruthy p.bonusExpiration }

/-- Model of `tools.get_transfer_bonuses`: iterate all edges, apply the
source-program filter and bonus filter, and rank by raw bonus multiplier. -/
def getTransferBonuses (table : TransferTable) (fromProgram : Str) : List BonusInfo :=
  sortDesc (fun b => b.bonusMultiplier)
    (table.flatMap
      (fun e =>
        if fromProgram ≠ [] ∧ ¬(pyIn (pyLower fromProgram) (pyLower e.1) = true) then []
        else e.2.filterMap (fun p => (acceptedBonus p).map (mkBonusInfo e.1 p))))

/-- Outcome wrapper of `get_transfer_bonuses`, with its length validation. -/
inductive BonusOutcome where
  | error (msg : Str)
  | ok (bonuses : List BonusInfo) (count : Nat)
deriving DecidableEq

/-- The full `get_transfer_bonuses` tool: validation, then the ranked bonuses. -/
def getTransferBonusesTool (table : TransferTable) (fromProgram : Str) : BonusOutcome :=
  if fromProgram ≠ [] ∧ fromProgram.length > 200 then
    .error "Program name too long (max 200 characters)".toList
  else
    .ok (getTransferBonuses table fromProgram) (getTransferBonuses table fromProgram).length

/-! ### Concrete catalogs, tables and scorers used by witnesses and
counterexamples -/

/-- A trivial scorer (the claims about the resolver hold for any scorer). -/
def zeroScorer : Str → Str → ℚ := fun _ _ => 0

/-- A scorer giving every candidate the same fixed score. -/
def constScorer (v : ℚ) : Str → Str → ℚ := fun _ _ => v

/-- A catalog entry named `"Foo"`. -/
def cardFooA : Card := { cardName := some "Foo".toList, issuer := some "Bank A".toList }

/-- A catalog entry named `"FOO"`, case-insensitively equal to `cardFooA`. -/
def cardFooB : Card := { cardName := some "FOO".toList, issuer := some "Bank B".toList }

/-- A card whose only benefit is a credit of type `"hotel credit"` — no elite
status of any kind. -/
def hotelCreditCard : Card :=
  { cardName := some "Hotel Credit Card".toList,
    benefits := { credits := [{ ctype := some "hotel credit".toList }] } }

/-- A card with one airline elite-status entry and no other benefits. -/
def airlineStatusCard : Card :=
  { cardName := some "Airline Status Card".toList,
    benefits := { status := { airlineEliteStatus :=
      [{ program := some "Star Alliance".toList, tier := some "Gold".toList }] } } }

/-- A Chase card updated 2024-03-15. -/
def chaseCard : Card :=
  { cardName := some "Chase Sapphire Preferred".toList, issuer := some "Chase".toList,
    lastUpdated := some "03/15/24".toList }

/-- A Chase card updated 2020-01-01. -/
def oldCard : Card :=
  { cardName := some "Old Chase Card".toList, issuer := some "Chase".toList,
    lastUpdated := some "01/01/20".toList }

/-- A Chase card with no `last_updated` field. -/
def noDateCard : Card :=
  { cardName := some "No Date Chase Card".toList, issuer := some "Chase".toList }

/-- A small catalog for search witnesses. -/
def demoCatalog : List Card := [chaseCard, oldCard, noDateCard]

/-- An edge whose `Bonus` is the sentinel string `"None"`. -/
def demoPartnerNone : TransferPartner :=
  { loyaltyProgram := some "United MileagePlus".toList, bonus := some (JVal.s "None".toList) }

/-- An edge with a genuine 2x bonus and an expiration note. -/
def demoPartnerBonus : TransferPartner :=
  { loyaltyProgram := some "Air France KLM".toList, ratioNum := some 1,
    bonus := some (JVal.n 2), bonusExpiration := some "June 2025".toList }

/-- A one-program transfer table exercising both bonus shapes. -/
def demoTable : TransferTable :=
  [("Chase Ultimate Rewards".toList, [demoPartnerNone, demoPartnerBonus])]

/-- A valuation table knowing only Air France. -/
def demoVals : ValTable := [("air_france_klm".toList, 2)]

/-- The `from`-direction entry built from `demoPartnerNone`: the sentinel string
bonus is truthy and gets attached; the unknown destination gets valuation 1. -/
def infoUnited : FromPartnerInfo :=
  { loyaltyProgram := "United MileagePlus".toList, best := false, ratioNum := 1,
    notes := [], valuation := 1, bonus := some (JVal.s "None".toList),
    bonusExpiration := none }

/-- The `from`-direction entry built from `demoPartnerBonus`. -/
def infoAF : FromPartnerInfo :=
  { loyaltyProgram := "Air France KLM".toList, best := false, ratioNum := 1,
    notes := [], valuation := 2, bonus := some (JVal.n 2),
    bonusExpiration := some "June 2025".toList }

/-- The bonus entry `get_transfer_bonuses` produces from `demoPartnerBonus`
(multiplier 2, percentage 100, effective ratio 2). -/
def demoBonusInfo : BonusInfo :=
  mkBonusInfo "Chase Ultimate Rewards".toList demoPartnerBonus 2

/-- The search result the demo catalog produces for `chaseCard` on query `"chase"`. -/
def resChase : SearchResult :=
  { cardName := some "Chase Sapphire Preferred".toList, issuer := some "Chase".toList,
    score := 15, matchReasons := ["Card name match".toList, "Issuer match".toList] }

/-- The search result the demo catalog produces for `oldCard` on query `"chase"`. -/
def resOld : SearchResult :=
  { cardName := some "Old Chase Card".toList, issuer := some "Chase".toList,
    score := 15, matchReasons := ["Card name match".toList, "Issuer match".toList] }

/-- The search result the demo catalog produces for `noDateCard` on query `"chase"`. -/
def resNoDate : SearchResult :=
  { cardName := some "No Date Chase Card".toList, issuer := some "Chase".toList,
    score := 15, matchReasons := ["Card name match".toList, "Issuer match".toList] }

/-! ## Helper lemmas -/

theorem mem_insDesc {α β : Type _} [LinearOrder β] (key : α → β) (a x : α)
    (l : List α) : x ∈ insDesc key a l ↔ x = a ∨ x ∈ l := by
  induction l with
  | nil => simp [insDesc]
  | cons b bs ih =>
    simp only [insDesc]
    split
    · simp only [List.mem_cons, ih]
      tauto
    · simp only [List.mem_cons]

theorem mem_sortDesc {α β : Type _} [LinearOrder β] (key : α → β) (x : α)
    (l : List α) : x ∈ sortDesc key l ↔ x ∈ l := by
  induction l with
  | nil => simp [sortDesc]
  | cons a as ih =>
    simp only [sortDesc, mem_insDesc, List.mem_cons, ih]

theorem pairwise_insDesc {α β : Type _} [LinearOrder β] (key : α → β) (a : α)
    (l : List α) (h : l.Pairwise (fun u v => key v ≤ key u)) :
    (insDesc key a l).Pairwise (fun u v => key v ≤ key u) := by
  induction l with
  | nil => simp [insDesc]
  | cons b bs ih =>
    rw [List.pairwise_cons] at h
    obtain ⟨hb, hbs⟩ := h
    simp only [insDesc]
    split
    · rename_i hlt
      rw [List.pairwise_cons]
      refine ⟨?_, ih hbs⟩
      intro y hy
      rcases (mem_insDesc key a y bs).1 hy with rfl | hy2
      · exact le_of_lt hlt
      · exact hb y hy2
    · rename_i hge
      rw [List.pairwise_cons]
      refine ⟨?_, List.pairwise_cons.2 ⟨hb, hbs⟩⟩
      intro y hy
      rcases List.mem_cons.1 hy with rfl | hy2
      · exact le_of_not_lt hge
      · exact le_trans (hb y hy2) (le_of_not_lt hge)

theorem pairwise_sortDesc {α β : Type _} [LinearOrder β] (key : α → β)
    (l : List α) : (sortDesc key l).Pairwise (fun u v => key v ≤ key u) := by
  induction l with
  | nil => simp [sortDesc]
  | cons a as ih => exact pairwise_insDesc key a _ ih

theorem acceptedBonus_some {p : TransferPartner} {q : ℚ}
    (h : acceptedBonus p = some q) : p.bonus = some (JVal.n q) ∧ 1 < q := by
  unfold acceptedBonus at h
  split at h
  · cases h
  · rename_i b hb
    split at h
    · cases h
    · split at h
      · cases h
      · rename_i hs r
        split at h
        · cases h
        · rename_i hr
          injection h with h
          subst h
          exact ⟨hb, lt_of_not_le hr⟩

theorem mem_dictInsert {k : Str} {v : Card} {p : Str × Card} :
    ∀ {d : List (Str × Card)}, p ∈ dictInsert k v d → p = (k, v) ∨ p ∈ d := by
  intro d
  induction d with
  | nil =>
    intro h
    rw [dictInsert] at h
    exact Or.inl (List.mem_singleton.1 h)
  | cons e rest ih =>
    obtain ⟨k0, v0⟩ := e
    intro h
    rw [dictInsert] at h
    split at h
    · rename_i hk
      subst hk
      rcases List.mem_cons.1 h with rfl | hrest
      · exact Or.inl rfl
      · exact Or.inr (List.mem_cons_of_mem _ hrest)
    · rcases List.mem_cons.1 h with rfl | hrest
      · exact Or.inr (List.mem_cons_self _ _)
      · rcases ih hrest with h1 | h2
        · exact Or.inl h1
        · exact Or.inr (List.mem_cons_of_mem _ h2)

theorem self_mem_dictInsert (k : Str) (v : Card) :
    ∀ d : List (Str × Card), (k, v) ∈ dictInsert k v d := by
  intro d
  induction d with
  | nil =>
    rw [dictInsert]
    exact List.mem_singleton.2 rfl
  | cons e rest ih =>
    obtain ⟨k0, v0⟩ := e
    rw [dictInsert]
    split
    · rename_i hk
      subst hk
      exact List.mem_cons_self _ _
    · exact List.mem_cons_of_mem _ ih

theorem exists_key_dictInsert {k0 k : Str} {v : Card} :
    ∀ {d : List (Str × Card)}, (∃ w, (k0, w) ∈ d) → ∃ w, (k0, w) ∈ dictInsert k v d := by
  intro d
  induction d with
  | nil =>
    rintro ⟨w, hw⟩
    cases hw
  | cons e rest ih =>
    obtain ⟨k1, v1⟩ := e
    rintro ⟨w, hw⟩
    rw [dictInsert]
    split
    · rename_i hk
      subst hk
      rcases List.mem_cons.1 hw with heq | hrest
      · refine ⟨v, ?_⟩
        have : k0 = k1 := congrArg Prod.fst heq
        subst this
        exact List.mem_cons_self _ _
      · exact ⟨w, List.mem_cons_of_mem _ hrest⟩
    · rcases List.mem_cons.1 hw with heq | hrest
      · exact ⟨w, heq ▸ List.mem_cons_self _ _⟩
      · obtain ⟨w2, hw2⟩ := ih ⟨w, hrest⟩
        exact ⟨w2, List.mem_cons_of_mem _ hw2⟩

theorem mem_buildCardLookupAux {p : Str × Card} :
    ∀ (cards : List Card) (d : List (Str × Card)), p ∈ buildCardLookupAux d cards →
      p ∈ d ∨ (p.2 ∈ cards ∧ p.2.cardName = some p.1 ∧ p.1 ≠ []) := by
  intro cards
  induction cards with
  | nil =>
    intro d h
    exact Or.inl h
  | cons c rest ih =>
    intro d h
    rcases hn : c.cardName with _ | n
    · simp only [buildCardLookupAux, hn] at h
      rcases ih d h with h1 | ⟨h2, h3, h4⟩
      · exact Or.inl h1
      · exact Or.inr ⟨List.mem_cons_of_mem _ h2, h3, h4⟩
    · by_cases hne : n = []
      · simp only [buildCardLookupAux, hn, if_pos hne] at h
        rcases ih d h with h1 | ⟨h2, h3, h4⟩
        · exact Or.inl h1
        · exact Or.inr ⟨List.mem_cons_of_mem _ h2, h3, h4⟩
      · simp only [buildCardLookupAux, hn, if_neg hne] at h
        rcases ih _ h with h1 | ⟨h2, h3, h4⟩
        · rcases mem_dictInsert h1 with heq | hd
          · subst heq
            exact Or.inr ⟨List.mem_cons_self _ _, hn, hne⟩
          · exact Or.inl hd
        · exact Or.inr ⟨List.mem_cons_of_mem _ h2, h3, h4⟩

theorem mem_buildCardLookup {p : Str × Card} {cards : List Card}
    (h : p ∈ buildCardLookup cards) :
    p.2 ∈ cards ∧ p.2.cardName = some p.1 ∧ p.1 ≠ [] := by
  rcases mem_buildCardLookupAux cards [] h with h1 | h2
  · cases h1
  · exact h2

theorem exists_key_buildCardLookupAux_of_mem {k : Str} :
    ∀ (cards : List Card) (d : List (Str × Card)), (∃ w, (k, w) ∈ d) →
      ∃ w, (k, w) ∈ buildCardLookupAux d cards := by
  intro cards
  induction cards with
  | nil =>
    intro d h
    exact h
  | cons c rest ih =>
    intro d h
    rcases hn : c.cardName with _ | n
    · simp only [buildCardLookupAux, hn]
      exact ih d h
    · by_cases hne : n = []
      · simp only [buildCardLookupAux, hn, if_pos hne]
        exact ih d h
      · simp only [buildCardLookupAux, hn, if_neg hne]
        exact ih _ (exists_key_dictInsert h)

theorem exists_key_buildCardLookupAux {c : Card} {nm : Str} :
    ∀ (cards : List Card) (d : List (Str × Card)), c ∈ cards → c.cardName = some nm →
      nm ≠ [] → ∃ w, (nm, w) ∈ buildCardLookupAux d cards := by
  intro cards
  induction cards with
  | nil =>
    intro d h
    cases h
  | cons c0 rest ih =>
    intro d hmem hnm hne
    rcases List.mem_cons.1 hmem with rfl | hrest
    · simp only [buildCardLookupAux, hnm, if_neg hne]
      exact exists_key_buildCardLookupAux_of_mem rest _ ⟨c, self_mem_dictInsert nm c d⟩
    · rcases hn : c0.cardName with _ | n
      · simp only [buildCardLookupAux, hn]
        exact ih d hrest hnm hne
      · by_cases hne0 : n = []
        · simp only [buildCardLookupAux, hn, if_pos hne0]
          exact ih d hrest hnm hne
        · simp only [buildCardLookupAux, hn, if_neg hne0]
          exact ih _ hrest hnm hne

theorem findExactMatch_eq_some {ql : Str} {c : Card} :
    ∀ d : List (Str × Card), (∃ p ∈ d, pyLower p.1 = ql) →
      (∀ p ∈ d, pyLower p.1 = ql → p.2 = c) → findExactMatch ql d = some c := by
  intro d
  induction d with
  | nil =>
    rintro ⟨p, hp, _⟩ _
    cases hp
  | cons e rest ih =>
    obtain ⟨n, v⟩ := e
    rintro ⟨p, hp, hpl⟩ hall
    rw [findExactMatch]
    by_cases hl : pyLower n = ql
    · rw [if_pos hl]
      exact congrArg some (hall (n, v) (List.mem_cons_self _ _) hl)
    · rw [if_neg hl]
      rcases List.mem_cons.1 hp with rfl | hrest
      · exact absurd hpl hl
      · exact ih ⟨p, hrest, hpl⟩ (fun p2 hp2 hl2 => hall p2 (List.mem_cons_of_mem _ hp2) hl2)

theorem findExactMatch_some_mem {ql : Str} {c : Card} :
    ∀ {d : List (Str × Card)}, findExactMatch ql d = some c →
      ∃ n, (n, c) ∈ d ∧ pyLower n = ql := by
  intro d
  induction d with
  | nil =>
    intro h
    cases h
  | cons e rest ih =>
    obtain ⟨n, v⟩ := e
    intro h
    rw [findExactMatch] at h
    split at h
    · rename_i hl
      injection h with h
      subst h
      exact ⟨n, List.mem_cons_self _ _, hl⟩
    · obtain ⟨n2, hn2, hl2⟩ := ih h
      exact ⟨n2, List.mem_cons_of_mem _ hn2, hl2⟩

theorem dictGet_some_mem {k : Str} {v : Card} :
    ∀ {d : List (Str × Card)}, dictGet k d = some v → (k, v) ∈ d := by
  intro d
  induction d with
  | nil =>
    intro h
    cases h
  | cons e rest ih =>
    obtain ⟨k0, v0⟩ := e
    intro h
    rw [dictGet] at h
    split at h
    · rename_i hk
      subst hk
      injection h with h
      subst h
      exact List.mem_cons_self _ _
    · exact List.mem_cons_of_mem _ (ih h)

theorem extractOne_mono {sc : Str → ℚ} {ns : List Str} {t1 t2 : ℚ} {m : Str}
    (hle : t1 ≤ t2) (h : extractOne sc t2 ns = some m) : extractOne sc t1 ns = some m := by
  rw [extractOne] at h ⊢
  revert h
  rcases hb : bestCandidate sc ns with _ | ⟨m0, s0⟩ <;> intro h
  · exact Option.noConfusion h
  · replace h : (if s0 ≥ t2 then some m0 else none) = some m := h
    show (if s0 ≥ t1 then some m0 else none) = some m
    split at h
    · rename_i hge
      injection h with h
      subst h
      rw [if_pos (le_trans hle hge)]
    · cases h

theorem nameMatches_true_iff {ql : Str} {c : Card} :
    nameMatches ql c = true ↔ ∃ nm, c.cardName = some nm ∧ nm ≠ [] ∧ pyLower nm = ql := by
  cases hn : c.cardName with
  | none => simp [nameMatches, hn]
  | some nm =>
    simp [nameMatches, hn, List.isEmpty_iff]

theorem clampMax_mono {m1 m2 : ℤ} (h : m1 ≤ m2) : clampMax m1 ≤ clampMax m2 := by
  unfold clampMax
  split <;> split <;> omega

theorem take_take_of_le {α : Type _} {c1 c2 : Nat} (h : c1 ≤ c2) (l : List α) :
    (l.take c2).take c1 = l.take c1 := by
  rw [List.take_take, min_eq_left h]

theorem score_pos_of_mem_searchMatches {ql : Str} {cards : List Card} {r : SearchResult}
    (h : r ∈ searchMatches ql cards) : 0 < r.score := by
  rw [searchMatches, List.mem_filterMap] at h
  obtain ⟨c, _, hc⟩ := h
  replace hc :
      (if (scoreCard ql c).1 > 0 then
        some { cardName := c.cardName, issuer := c.issuer,
               rewardsCurrency := c.rewardsCurrency, annualFee := c.annualFee,
               cardType := c.cardType, score := (scoreCard ql c).1,
               matchReasons := (scoreCard ql c).2.take 3 }
      else (none : Option SearchResult)) = some r := hc
  split at hc
  · rename_i hpos
    injection hc with hc
    subst hc
    exact hpos
  · exact Option.noConfusion hc

theorem searchOk_inv {q : Str} {mr : ℤ} {cs : List Card} {res : List SearchResult}
    {tot : Nat} {qq : Str} (h : searchOk q mr cs = .ok res tot qq) :
    res = (rankedMatches (pyLower q) cs).take (clampMax mr).toNat
      ∧ tot = res.length ∧ qq = q := by
  rw [searchOk] at h
  injection h with h1 h2 h3
  subst h1
  exact ⟨rfl, h2.symm, h3.symm⟩

theorem searchOk_mono {q : Str} {m1 m2 : ℤ} (h12 : m1 ≤ m2) (cs : List Card)
    {res2 : List SearchResult} {tot2 : Nat} {qq : Str}
    (h : searchOk q m2 cs = .ok res2 tot2 qq) :
    (∀ r ∈ res2, 0 < r.score)
      ∧ searchOk q m1 cs =
          .ok (res2.take (clampMax m1).toNat) (res2.take (clampMax m1).toNat).length q := by
  obtain ⟨hres, -, -⟩ := searchOk_inv h
  subst hres
  constructor
  · intro r hr
    have hr2 := List.mem_of_mem_take hr
    rw [rankedMatches, mem_sortDesc] at hr2
    exact score_pos_of_mem_searchMatches hr2
  · rw [searchOk, take_take_of_le (Int.toNat_le_toNat (clampMax_mono h12)) _]

theorem creditCardSearch_ok_inv {cards : List Card} {now : ℚ} {q : Str} {mr : ℤ}
    {rd : Option ℤ} {res : List SearchResult} {tot : Nat} {qq : Str}
    (h : creditCardSearch cards now q mr rd = .ok res tot qq) :
    q ≠ [] ∧ q.length ≤ 500 ∧ 1 ≤ mr ∧
      match rd with
      | some n => 1 ≤ n ∧ searchOk q mr (filterRecent now n cards) = .ok res tot qq
      | none => searchOk q mr cards = .ok res tot qq := by
  by_cases hq : q = []
  · rw [creditCardSearch.eq_def, if_pos hq] at h
    exact absurd h (by simp)
  · by_cases hlen : q.length > 500
    · rw [creditCardSearch.eq_def, if_neg hq, if_pos hlen] at h
      exact absurd h (by simp)
    · by_cases hmr : mr < 1
      · rw [creditCardSearch.eq_def, if_neg hq, if_neg hlen, if_pos hmr] at h
        exact absurd h (by simp)
      · rw [creditCardSearch.eq_def, if_neg hq, if_neg hlen, if_neg hmr] at h
        refine ⟨hq, by omega, by omega, ?_⟩
        cases rd with
        | none => exact h
        | some n =>
          replace h :
              (if n < 1 then
                SearchOutcome.error "recently_updated must be a positive integer".toList
              else searchOk q mr (filterRecent now n cards)) = .ok res tot qq := h
          by_cases hn : n < 1
          · rw [if_pos hn] at h
            exact absurd h (by simp)
          · rw [if_neg hn] at h
            exact ⟨by omega, h⟩

theorem creditCardSearch_eq_none {cards : List Card} {now : ℚ} {q : Str} {mr : ℤ}
    (hq : q ≠ []) (hlen : q.length ≤ 500) (hmr : 1 ≤ mr) :
    creditCardSearch cards now q mr none = searchOk q mr cards := by
  rw [creditCardSearch.eq_def, if_neg hq, if_neg (by omega), if_neg (by omega)]

theorem creditCardSearch_eq_some {cards : List Card} {now : ℚ} {q : Str} {mr n : ℤ}
    (hq : q ≠ []) (hlen : q.length ≤ 500) (hmr : 1 ≤ mr) (hn : 1 ≤ n) :
    creditCardSearch cards now q mr (some n) = searchOk q mr (filterRecent now n cards) := by
  rw [creditCardSearch.eq_def, if_neg hq, if_neg (by omega), if_neg (by omega)]
  show (if n < 1 then
      SearchOutcome.error "recently_updated must be a positive integer".toList
    else searchOk q mr (filterRecent now n cards)) = _
  rw [if_neg (by omega)]

theorem mem_filterRecent {now : ℚ} {n : ℤ} {cards : List Card} {c : Card} :
    c ∈ filterRecent now n cards ↔
      c ∈ cards ∧ ∃ s, c.lastUpdated = some s ∧ s ≠ [] ∧
        ∃ d, parseMMDDYY s = some d ∧ now - (n : ℚ) ≤ (d : ℚ) := by
  rw [filterRecent, List.mem_filter]
  constructor
  · rintro ⟨hc, hp⟩
    refine ⟨hc, ?_⟩
    rcases hs : c.lastUpdated with _ | s
    · simp only [hs] at hp
      exact Bool.noConfusion hp
    · simp only [hs, Bool.and_eq_true] at hp
      obtain ⟨hse, hp2⟩ := hp
      refine ⟨s, rfl, by simpa using hse, ?_⟩
      rcases hd : parseMMDDYY s with _ | d
      · simp only [hd] at hp2
        exact Bool.noConfusion hp2
      · simp only [hd] at hp2
        exact ⟨d, rfl, by simpa [ge_iff_le] using of_decide_eq_true hp2⟩
  · rintro ⟨hc, s, hs, hse, d, hd, hled⟩
    refine ⟨hc, ?_⟩
    simp only [hs, hd, Bool.and_eq_true]
    exact ⟨by simpa using hse, decide_eq_true (by simpa [ge_iff_le] using hled)⟩

theorem not_isEmpty_of_ne_nil {α : Type _} {l : List α} (h : l ≠ []) :
    (!l.isEmpty) = true := by
  cases l with
  | nil => exact absurd rfl h
  | cons a as => rfl

theorem statusStage_of_targets {ql : Str} {st : StatusTable}
    (ht : queryTargets ql ≠ []) :
    statusStage ql st = (queryTargets ql).any (fun cat => !(statusGet st cat).isEmpty) := by
  rw [statusStage, if_pos (not_isEmpty_of_ne_nil ht)]

theorem statusStage_fallback {ql : Str} {st : StatusTable}
    (ht : queryTargets ql = [])
    (hw : (pyWords ql).any (fun w => w = "status".toList || w = "elite".toList) = false) :
    statusStage ql st =
      allStatusCategories.any
        (fun cat => (statusGet st cat).any (fun e => pyIn ql (pyLower (pyStrEntry e)))) := by
  rw [statusStage, if_neg (by simp [ht]), if_neg (by rw [hw]; exact Bool.false_ne_true)]

theorem attachedBonus_truthy {p : TransferPartner} {b : JVal}
    (h : attachedBonus p = some b) : jvalTruthy b = true := by
  rw [attachedBonus] at h
  split at h
  · rename_i ht
    injection h with h
    subst h
    exact ht
  · exact Option.noConfusion h

theorem attachedExp_imp {p : TransferPartner} (h : attachedExp p ≠ none) :
    attachedBonus p ≠ none := by
  rw [attachedExp] at h
  rw [attachedBonus]
  by_cases ht : jvalTruthy (bonusField p) = true
  · rw [if_pos ht]
    simp
  · rw [if_neg ht] at h
    exact absurd rfl h

theorem lookupTransferPartners_from_inv {table : TransferTable} {vt : ValTable}
    {q : Str} {k : Str} {infos : List FromPartnerInfo}
    (h : lookupTransferPartners table vt q "from".toList = .fromProgram k infos) :
    ∃ ps, findFromProgram (pyLower q) table = some (k, ps)
      ∧ infos = sortDesc (fun i => i.valuation) (ps.map (mkFromInfo vt)) := by
  simp only [lookupTransferPartners] at h
  by_cases hq : q = []
  · rw [if_pos hq] at h
    exact absurd h (by simp)
  · rw [if_neg hq] at h
    by_cases hlen : q.length > 200
    · rw [if_pos hlen] at h
      exact absurd h (by simp)
    · rw [if_neg hlen, if_true] at h
      revert h
      rcases hf : findFromProgram (pyLower q) table with _ | kps <;> intro h
      · exact absurd h (by simp)
      · obtain ⟨k0, ps⟩ := kps
        replace h :
            TransferResult.fromProgram k0
              (sortDesc (fun i => i.valuation) (ps.map (mkFromInfo vt)))
            = .fromProgram k infos := h
        injection h with h1 h2
        subst h1
        exact ⟨ps, rfl, h2.symm⟩

theorem lookupTransferPartners_to_inv {table : TransferTable} {vt : ValTable}
    {q : Str} {d : Str} {v : ℚ} {infos : List ToSourceInfo}
    (h : lookupTransferPartners table vt q "to".toList = .toProgram d v infos) :
    infos = collectToSources vt (pyLower q) table := by
  simp only [lookupTransferPartners] at h
  by_cases hq : q = []
  · rw [if_pos hq] at h
    exact absurd h (by simp)
  · rw [if_neg hq] at h
    by_cases hlen : q.length > 200
    · rw [if_pos hlen] at h
      exact absurd h (by simp)
    · rw [if_neg hlen,
        if_neg (by decide : ¬("to".toList ≠ "from".toList ∧ "to".toList ≠ "to".toList)),
        if_neg (by decide : ¬("to".toList = "from".toList))] at h
      by_cases hs : collectToSources vt (pyLower q) table = []
      · rw [if_pos hs] at h
        exact absurd h (by simp)
      · rw [if_neg hs] at h
        injection h with h1 h2 h3
        exact h3.symm

theorem toSources_inner (vt : ValTable) (ql k : Str) :
    ∀ (ps : List TransferPartner) (acc : List ToSourceInfo),
      ps.foldl
        (fun acc2 p =>
          if pyIn ql (pyLower (p.loyaltyProgram.getD [])) then acc2 ++ [mkToInfo vt k p]
          else acc2) acc
      = acc ++ (ps.filter fun p => pyIn ql (pyLower (p.loyaltyProgram.getD []))).map
          (mkToInfo vt k) := by
  intro ps
  induction ps with
  | nil =>
    intro acc
    simp
  | cons p rest ih =>
    intro acc
    rw [List.foldl_cons]
    by_cases hp : pyIn ql (pyLower (p.loyaltyProgram.getD [])) = true
    · rw [if_pos hp, ih]
      simp [List.filter_cons, hp]
    · rw [if_neg hp, ih]
      simp [List.filter_cons, hp]

theorem collectToSources_eq (vt : ValTable) (ql : Str) (table : TransferTable) :
    collectToSources vt ql table
      = table.flatMap (fun e =>
          (e.2.filter fun p => pyIn ql (pyLower (p.loyaltyProgram.getD []))).map
            (mkToInfo vt e.1)) := by
  suffices haux : ∀ (t : TransferTable) (acc : List ToSourceInfo),
      t.foldl
        (fun acc e =>
          e.2.foldl
            (fun acc2 p =>
              if pyIn ql (pyLower (p.loyaltyProgram.getD [])) then acc2 ++ [mkToInfo vt e.1 p]
              else acc2) acc) acc
      = acc ++ t.flatMap (fun e =>
          (e.2.filter fun p => pyIn ql (pyLower (p.loyaltyProgram.getD []))).map
            (mkToInfo vt e.1)) by
    simpa [collectToSources] using haux table []
  intro t
  induction t with
  | nil =>
    intro acc
    simp
  | cons e rest ih =>
    intro acc
    rw [List.foldl_cons, toSources_inner vt ql e.1 e.2 acc, ih, List.flatMap_cons,
      List.append_assoc]

/-! ## Claim theorems -/

/-- C3: every entry of the `get_transfer_bonuses` result stems from an edge whose
`Bonus` is a number strictly greater than 1.0 (edges with a missing bonus, the
sentinels `"None"`/`"Varies"`, another non-numeric bonus, or a bonus ≤ 1.0 never
appear), and the result is sorted descending by the raw bonus multiplier. -/
theorem transfer_bonuses_filtered_and_ranked (table : TransferTable) (fp : Str) :
    (∀ b ∈ getTransferBonuses table fp,
      1 < b.bonusMultiplier ∧
        ∃ src partners p, (src, partners) ∈ table ∧ p ∈ partners ∧
          p.bonus = some (JVal.n b.bonusMultiplier) ∧ b = mkBonusInfo src p b.bonusMultiplier)
    ∧ (getTransferBonuses table fp).Pairwise
        (fun b1 b2 => b2.bonusMultiplier ≤ b1.bonusMultiplier) := by
  constructor
  · intro b hb
    rw [getTransferBonuses, mem_sortDesc, List.mem_flatMap] at hb
    obtain ⟨e, he, hbe⟩ := hb
    split at hbe
    · cases hbe
    · rw [List.mem_filterMap] at hbe
      obtain ⟨p, hp, hmap⟩ := hbe
      rw [Option.map_eq_some'] at hmap
      obtain ⟨q, hq, hmk⟩ := hmap
      obtain ⟨hbq, h1q⟩ := acceptedBonus_some hq
      subst hmk
      have hmult : (mkBonusInfo e.1 p q).bonusMultiplier = q := rfl
      rw [hmult]
      exact ⟨h1q, e.1, e.2, p, he, hp, hbq, rfl⟩
  · exact pairwise_sortDesc _ _

/-- Witness for C3 on the demo table: the single surviving edge (the `"None"`
sentinel edge is dropped) has multiplier 2 and stems from `demoPartnerBonus`. -/
theorem transfer_bonuses_filtered_and_ranked_witness :
    1 < demoBonusInfo.bonusMultiplier
      ∧ ∃ src partners p, (src, partners) ∈ demoTable ∧ p ∈ partners
          ∧ p.bonus = some (JVal.n demoBonusInfo.bonusMultiplier)
          ∧ demoBonusInfo = mkBonusInfo src p demoBonusInfo.bonusMultiplier :=
  (transfer_bonuses_filtered_and_ranked demoTable []).1 demoBonusInfo
    (List.mem_singleton.mpr rfl)

/-- C10: any record returned by `get_credit_card_by_name` is itself a catalog
entry whose `card_name` is present and non-empty: entries with a missing or
empty `card_name` are excluded from the lookup table and are unreachable
through both the exact-match and the fuzzy-match path. -/
theorem resolver_result_is_named_entry (sc : Str → Str → ℚ) (t : ℚ)
    (cards : List Card) (q : Str) (r : Card)
    (h : getCreditCardByName sc t cards q = some r) :
    r ∈ cards ∧ ∃ nm, r.cardName = some nm ∧ nm ≠ [] := by
  rw [getCreditCardByName] at h
  split at h
  · exact Option.noConfusion h
  · split at h
    · rename_i c hf
      injection h with h
      subst h
      obtain ⟨n, hmem, _⟩ := findExactMatch_some_mem hf
      obtain ⟨h1, h2, h3⟩ := mem_buildCardLookup hmem
      exact ⟨h1, n, h2, h3⟩
    · split at h
      · rename_i m hm
        have hmem := dictGet_some_mem h
        obtain ⟨h1, h2, h3⟩ := mem_buildCardLookup hmem
        exact ⟨h1, m, h2, h3⟩
      · exact Option.noConfusion h

/-- Witness for C10 at a concrete catalog and query (resolved via the exact path). -/
theorem resolver_result_is_named_entry_witness :
    cardFooA ∈ [cardFooA, cardFooB] ∧ ∃ nm, cardFooA.cardName = some nm ∧ nm ≠ [] :=
  resolver_result_is_named_entry zeroScorer 85 [cardFooA, cardFooB] "foo".toList cardFooA
    (by decide)

/-- C1 is refuted at a concrete catalog: the query `"foo"` is case-insensitively
equal to the canonical name `"FOO"` of `cardFooB`, yet the resolver returns the
distinct record `cardFooA`, whose lookup key matched first. -/
theorem resolve_exact_match_cex :
    getCreditCardByName zeroScorer 85 [cardFooA, cardFooB] "foo".toList = some cardFooA
      ∧ cardFooA ≠ cardFooB
      ∧ nameMatches (pyStrip (pyLower "foo".toList)) cardFooB = true :=
  ⟨by decide, by decide, by decide⟩

/-- C1 (amended): when exactly one catalog entry carries a non-empty canonical
name case-insensitively equal to the stripped query, `get_credit_card_by_name`
returns that exact record via the exact-match fast path — for every scorer and
threshold, hence even when multiple fuzzy candidates exist. -/
theorem resolve_exact_match_unique (sc : Str → Str → ℚ) (t : ℚ)
    (cards : List Card) (q : Str) (c : Card)
    (hc : c ∈ cards) (hm : nameMatches (pyStrip (pyLower q)) c = true)
    (huniq : ∀ c2 ∈ cards, nameMatches (pyStrip (pyLower q)) c2 = true → c2 = c) :
    getCreditCardByName sc t cards q = some c := by
  have hcne : cards ≠ [] := by
    rintro rfl
    cases hc
  obtain ⟨nm, hnm, hne, hlow⟩ := nameMatches_true_iff.mp hm
  have hfind : findExactMatch (pyStrip (pyLower q)) (buildCardLookup cards) = some c := by
    apply findExactMatch_eq_some
    · obtain ⟨w, hw⟩ := exists_key_buildCardLookupAux cards [] hc hnm hne
      exact ⟨(nm, w), hw, hlow⟩
    · rintro ⟨n, v⟩ hp hpl
      obtain ⟨hv, hvn, hne2⟩ := mem_buildCardLookup hp
      exact huniq v hv (nameMatches_true_iff.mpr ⟨n, hvn, hne2, hpl⟩)
  rw [getCreditCardByName, if_neg hcne, hfind]

/-- Witness for the amended C1 on a singleton catalog. -/
theorem resolve_exact_match_unique_witness :
    getCreditCardByName zeroScorer 85 [cardFooA] "foo".toList = some cardFooA :=
  resolve_exact_match_unique zeroScorer 85 [cardFooA] "foo".toList cardFooA
    (by decide) (by decide) (by decide)

/-- C5: fuzzy resolution is monotone in the acceptance threshold — whenever the
resolver finds a record at threshold `t2`, it finds the same record at any lower
threshold `t1 ≤ t2`.  So raising the threshold never turns a NotFound into a
match, and the threshold never changes which record is selected, it only gates
acceptance of the maximum-scoring candidate. -/
theorem resolve_threshold_mono (sc : Str → Str → ℚ) (cards : List Card) (q : Str)
    (t1 t2 : ℚ) (hle : t1 ≤ t2) (r : Card)
    (h : getCreditCardByName sc t2 cards q = some r) :
    getCreditCardByName sc t1 cards q = some r := by
  rw [getCreditCardByName] at h ⊢
  split at h
  · exact Option.noConfusion h
  · rename_i hcne
    rw [if_neg hcne]
    revert h
    rcases hf : findExactMatch (pyStrip (pyLower q)) (buildCardLookup cards) with _ | c
      <;> intro h
    · replace h :
          (match extractOne (sc q) t2 ((buildCardLookup cards).map Prod.fst) with
            | some m => dictGet m (buildCardLookup cards)
            | none => none) = some r := h
      show (match extractOne (sc q) t1 ((buildCardLookup cards).map Prod.fst) with
        | some m => dictGet m (buildCardLookup cards)
        | none => none) = some r
      revert h
      rcases he : extractOne (sc q) t2 ((buildCardLookup cards).map Prod.fst) with _ | m
        <;> intro h
      · exact Option.noConfusion h
      · rw [extractOne_mono hle he]
        exact h
    · exact h

/-- Witness for C5: with a constant scorer of 90 the query `"zz"` resolves at
threshold 90 through the fuzzy path, hence also at the default threshold 85. -/
theorem resolve_threshold_mono_witness :
    getCreditCardByName (constScorer 90) 85 [cardFooA, cardFooB] "zz".toList = some cardFooA :=
  resolve_threshold_mono (constScorer 90) [cardFooA, cardFooB] "zz".toList 85 90
    (by decide) cardFooA (by decide)

/-- C7: for every catalog and valid query, every result of `credit_card_search`
has score strictly greater than 0, and lowering `max_results` yields a prefix of
the longer result list — the relative order of the kept results never changes. -/
theorem search_score_pos_and_truncation (cards : List Card) (now : ℚ) (q : Str)
    (rd : Option ℤ) (m1 m2 : ℤ) (res2 : List SearchResult) (tot2 : Nat) (qq : Str)
    (h1 : 1 ≤ m1) (h12 : m1 ≤ m2)
    (h : creditCardSearch cards now q m2 rd = .ok res2 tot2 qq) :
    (∀ r ∈ res2, 0 < r.score)
      ∧ creditCardSearch cards now q m1 rd =
          .ok (res2.take (clampMax m1).toNat) (res2.take (clampMax m1).toNat).length q := by
  obtain ⟨hq, hlen, hm2, hbr⟩ := creditCardSearch_ok_inv h
  cases rd with
  | none =>
    obtain ⟨hpos, hok⟩ := searchOk_mono h12 cards hbr
    exact ⟨hpos, by rw [creditCardSearch_eq_none hq hlen h1]; exact hok⟩
  | some n =>
    obtain ⟨hn, hok0⟩ := hbr
    obtain ⟨hpos, hok⟩ := searchOk_mono h12 _ hok0
    exact ⟨hpos, by rw [creditCardSearch_eq_some hq hlen h1 hn]; exact hok⟩

/-- Witness for C7 on the demo catalog: the two-result search at
`max_results = 2` shrinks to its one-element front at `max_results = 1`. -/
theorem search_score_pos_and_truncation_witness :
    (∀ r ∈ [resChase, resOld], 0 < r.score)
      ∧ creditCardSearch demoCatalog 0 "chase".toList 1 none =
          .ok ([resChase, resOld].take (clampMax 1).toNat)
            ([resChase, resOld].take (clampMax 1).toNat).length "chase".toList :=
  search_score_pos_and_truncation demoCatalog 0 "chase".toList none 1 2
    [resChase, resOld] 2 "chase".toList (by decide) (by decide) (by decide)

/-- C8 is refuted at `max_results = 0`: instead of clamping into `[1, 50]` and
returning a truncated result list, `credit_card_search` reports a validation
error, and no `ok` result exists at all. -/
theorem search_clamp_cex :
    creditCardSearch [] 0 "x".toList 0 none
        = .error "max_results must be a positive integer".toList
      ∧ ∀ res tot qq, creditCardSearch [] 0 "x".toList 0 none ≠ .ok res tot qq := by
  refine ⟨by decide, ?_⟩
  intro res tot qq hcontra
  rw [show creditCardSearch [] 0 "x".toList 0 none
      = .error "max_results must be a positive integer".toList from by decide] at hcontra
  exact SearchOutcome.noConfusion hcontra

/-- C8 (amended): a `max_results ≥ 1` is capped at 50 and the ranked result list
truncated to the capped value (so the effective bound always lies in `[1, 50]`);
a `max_results < 1` yields a validation error instead of being clamped. -/
theorem search_max_results_capped (cards : List Card) (now : ℚ) (q : Str)
    (rd : Option ℤ) (mr : ℤ) (hq : q ≠ []) (hlen : q.length ≤ 500) :
    (mr < 1 → creditCardSearch cards now q mr rd =
        .error "max_results must be a positive integer".toList)
    ∧ (∀ res tot qq, creditCardSearch cards now q mr rd = .ok res tot qq →
        1 ≤ clampMax mr ∧ clampMax mr ≤ 50
          ∧ res = (rankedMatches (pyLower q)
              (match rd with
               | some n => filterRecent now n cards
               | none => cards)).take (clampMax mr).toNat
          ∧ res.length ≤ (clampMax mr).toNat) := by
  constructor
  · intro hmr
    rw [creditCardSearch.eq_def, if_neg hq, if_neg (by omega), if_pos hmr]
  · intro res tot qq h
    obtain ⟨-, -, hm, hbr⟩ := creditCardSearch_ok_inv h
    have hcl1 : 1 ≤ clampMax mr := by unfold clampMax; split <;> omega
    have hcl2 : clampMax mr ≤ 50 := by unfold clampMax; split <;> omega
    cases rd with
    | none =>
      obtain ⟨hres, -, -⟩ := searchOk_inv hbr
      exact ⟨hcl1, hcl2, hres, by rw [hres]; exact List.length_take_le _ _⟩
    | some n =>
      obtain ⟨hres, -, -⟩ := searchOk_inv hbr.2
      exact ⟨hcl1, hcl2, hres, by rw [hres]; exact List.length_take_le _ _⟩

/-- Witness for the amended C8: `max_results = 60` is capped at 50, and the
three-result demo search is truncated to that cap. -/
theorem search_max_results_capped_witness :
    1 ≤ clampMax 60 ∧ clampMax 60 ≤ 50
      ∧ [resChase, resOld, resNoDate]
          = (rankedMatches (pyLower "chase".toList) demoCatalog).take (clampMax 60).toNat
      ∧ ([resChase, resOld, resNoDate] : List SearchResult).length ≤ (clampMax 60).toNat :=
  (search_max_results_capped demoCatalog 0 "chase".toList none 60 (by decide) (by decide)).2
    [resChase, resOld, resNoDate] 3 "chase".toList (by decide)

/-- C6: with `recently_updated = n` active, a non-positive `n` yields a validation
error; for `n ≥ 1` the search runs on exactly the pre-filtered catalog, and that
filter keeps precisely the cards whose `last_updated` is a present, non-empty
string parsing as `MM/DD/YY` to a day not older than `n` days before `now` —
every card with a missing or unparsable date is excluded. -/
theorem search_recently_updated_filter (cards : List Card) (now : ℚ) (q : Str)
    (mr n : ℤ) (hq : q ≠ []) (hlen : q.length ≤ 500) (hmr : 1 ≤ mr) :
    (n < 1 → creditCardSearch cards now q mr (some n) =
        .error "recently_updated must be a positive integer".toList)
    ∧ (1 ≤ n → creditCardSearch cards now q mr (some n)
        = searchOk q mr (filterRecent now n cards))
    ∧ (∀ c, c ∈ filterRecent now n cards ↔
        c ∈ cards ∧ ∃ s, c.lastUpdated = some s ∧ s ≠ [] ∧
          ∃ d, parseMMDDYY s = some d ∧ now - (n : ℚ) ≤ (d : ℚ)) := by
  refine ⟨?_, ?_, fun c => mem_filterRecent⟩
  · intro hn
    rw [creditCardSearch.eq_def, if_neg hq, if_neg (by omega), if_neg (by omega)]
    show (if n < 1 then
        SearchOutcome.error "recently_updated must be a positive integer".toList
      else searchOk q mr (filterRecent now n cards)) = _
    rw [if_pos hn]
  · intro hn
    exact creditCardSearch_eq_some hq hlen hmr hn

/-- Witness for C6: with `now` ten days after 2024-03-15 and a 30-day window, the
dated `chaseCard` passes the filter while the date-less `noDateCard` is excluded. -/
theorem search_recently_updated_filter_witness :
    chaseCard ∈ filterRecent 19807 30 demoCatalog
      ∧ noDateCard ∉ filterRecent 19807 30 demoCatalog := by
  have hthm := search_recently_updated_filter demoCatalog 19807 "chase".toList 5 30
    (by decide) (by decide) (by decide)
  constructor
  · exact (hthm.2.2 chaseCard).mpr
      ⟨by decide, "03/15/24".toList, rfl, by decide, 19797, by decide, by norm_num⟩
  · intro hmem
    obtain ⟨-, s, hs, -⟩ := (hthm.2.2 noDateCard).mp hmem
    exact Option.noConfusion hs

/-- C2 is refuted at a concrete card: the query `"hotel"` names a status category
and `benefits_search` matches `hotelCreditCard` (through its credit named
`"hotel credit"`), although the card has no entry at all in the hotel
elite-status category — the claimed "if and only if" fails in the "only if"
direction. -/
theorem benefits_category_presence_cex :
    benefitsSearch [hotelCreditCard] "hotel".toList
        = .ok [hotelCreditCard] 1 "hotel".toList
      ∧ statusGet hotelCreditCard.benefits.status .hotel = []
      ∧ queryTargets (pyLower "hotel".toList) = [StatusCategory.hotel] :=
  ⟨by decide, by decide, by decide⟩

/-- C2 (amended): the category-presence rule holds at the elite-status stage —
when the query names status categories, that stage matches iff some named
category is non-empty, regardless of keyword text, and category presence forces
the whole card to match; a query with no status/elite vocabulary matches a
status entry only by plain substring containment of the whole query in the
stringified entry.  (The whole-card match is an "if", not an "iff": earlier
benefit fields can also match the query, as the counterexample shows.) -/
theorem benefits_status_category_rules (c : Card) (q : Str) :
    (queryTargets (pyLower q) ≠ [] →
      (statusStage (pyLower q) c.benefits.status = true ↔
        ∃ cat ∈ queryTargets (pyLower q), statusGet c.benefits.status cat ≠ [])
      ∧ ((∃ cat ∈ queryTargets (pyLower q), statusGet c.benefits.status cat ≠ []) →
          cardBenefitsMatches (pyLower q) c = true))
    ∧ ((∀ w ∈ pyWords (pyLower q), categoryKeyword w = none
          ∧ w ≠ "status".toList ∧ w ≠ "elite".toList) →
      (statusStage (pyLower q) c.benefits.status = true ↔
        ∃ cat ∈ allStatusCategories, ∃ e ∈ statusGet c.benefits.status cat,
          pyIn (pyLower q) (pyLower (pyStrEntry e)) = true)) := by
  constructor
  · intro ht
    have hstage : statusStage (pyLower q) c.benefits.status
        = (queryTargets (pyLower q)).any
            (fun cat => !(statusGet c.benefits.status cat).isEmpty) :=
      statusStage_of_targets ht
    constructor
    · rw [hstage, List.any_eq_true]
      constructor
      · rintro ⟨cat, hcat, hb⟩
        refine ⟨cat, hcat, ?_⟩
        intro hnil
        rw [hnil] at hb
        exact Bool.noConfusion hb
      · rintro ⟨cat, hcat, hne⟩
        exact ⟨cat, hcat, not_isEmpty_of_ne_nil hne⟩
    · intro hex
      have hs : statusStage (pyLower q) c.benefits.status = true := by
        rw [hstage, List.any_eq_true]
        obtain ⟨cat, hcat, hne⟩ := hex
        exact ⟨cat, hcat, not_isEmpty_of_ne_nil hne⟩
      simp only [cardBenefitsMatches, hs, Bool.or_true]
  · intro hall
    have ht : queryTargets (pyLower q) = [] := by
      rw [queryTargets, List.filterMap_eq_nil_iff]
      intro w hw
      exact (hall w hw).1
    have hw : ((pyWords (pyLower q)).any
        (fun w => w = "status".toList || w = "elite".toList)) = false := by
      rw [List.any_eq_false]
      intro w hw2
      obtain ⟨-, h2, h3⟩ := hall w hw2
      show ¬(decide (w = "status".toList) || decide (w = "elite".toList)) = true
      rw [decide_eq_false h2, decide_eq_false h3]
      exact Bool.false_ne_true
    rw [statusStage_fallback ht hw, List.any_eq_true]
    constructor
    · rintro ⟨cat, hcat, hb⟩
      rw [List.any_eq_true] at hb
      obtain ⟨e, he, hp⟩ := hb
      exact ⟨cat, hcat, e, he, hp⟩
    · rintro ⟨cat, hcat, e, he, hp⟩
      exact ⟨cat, hcat, List.any_eq_true.2 ⟨e, he, hp⟩⟩

/-- Witness for the amended C2: the query `"airline status"` names the airline
category, and `airlineStatusCard` — whose only airline entry shares no keyword
with the query — matches through category presence. -/
theorem benefits_status_category_rules_witness :
    statusStage (pyLower "airline status".toList) airlineStatusCard.benefits.status = true
      ∧ cardBenefitsMatches (pyLower "airline status".toList) airlineStatusCard = true := by
  have hthm := (benefits_status_category_rules airlineStatusCard
    "airline status".toList).1 (by decide)
  have hex : ∃ cat ∈ queryTargets (pyLower "airline status".toList),
      statusGet airlineStatusCard.benefits.status cat ≠ [] :=
    ⟨.airline, by decide, by decide⟩
  exact ⟨hthm.1.mpr hex, hthm.2 hex⟩

/-- C4: in the `from` direction the destination list is sorted descending by the
attached valuation, and every entry carries the valuation of its destination
program under normalized-key lookup with default 1.0 (a program absent from the
valuation table gets exactly 1.0); in the `to` direction no ranking is applied —
the matching source edges come in table insertion order, program by program. -/
theorem lookup_partners_ranking (table : TransferTable) (vt : ValTable) (q : Str) :
    (∀ k infos, lookupTransferPartners table vt q "from".toList = .fromProgram k infos →
      infos.Pairwise (fun a b => b.valuation ≤ a.valuation)
        ∧ ∀ i ∈ infos,
            i.valuation = (vt.lookup (normalizeKey i.loyaltyProgram)).getD 1
            ∧ (vt.lookup (normalizeKey i.loyaltyProgram) = none → i.valuation = 1))
    ∧ (∀ d v infos, lookupTransferPartners table vt q "to".toList = .toProgram d v infos →
        infos = table.flatMap (fun e =>
          (e.2.filter fun p => pyIn (pyLower q) (pyLower (p.loyaltyProgram.getD []))).map
            (mkToInfo vt e.1))) := by
  constructor
  · intro k infos h
    obtain ⟨ps, hf, hinfos⟩ := lookupTransferPartners_from_inv h
    subst hinfos
    refine ⟨pairwise_sortDesc _ _, ?_⟩
    intro i hi
    rw [mem_sortDesc, List.mem_map] at hi
    obtain ⟨p, hp, rfl⟩ := hi
    refine ⟨rfl, ?_⟩
    intro hn
    show (vt.lookup (normalizeKey (p.loyaltyProgram.getD []))).getD 1 = 1
    rw [show vt.lookup (normalizeKey (p.loyaltyProgram.getD [])) = none from hn]
    rfl
  · intro d v infos h
    rw [lookupTransferPartners_to_inv h, collectToSources_eq]

/-- Witness for C4 on the demo table: the two destinations come back sorted by
valuation, Air France (2¢) before the unknown-to-the-table United (default 1.0). -/
theorem lookup_partners_ranking_witness :
    ([infoAF, infoUnited] : List FromPartnerInfo).Pairwise
      (fun a b => b.valuation ≤ a.valuation) :=
  ((lookup_partners_ranking demoTable demoVals "chase".toList).1
    "Chase Ultimate Rewards".toList [infoAF, infoUnited] (by decide)).1

/-- C9 is refuted at a concrete table: the edge to United carries the sentinel
bonus string `"None"`, which is truthy, so `lookup_transfer_partners` attaches
it as a present bonus instead of omitting it. -/
theorem lookup_bonus_sentinel_cex :
    lookupTransferPartners demoTable demoVals "chase".toList "from".toList
        = .fromProgram "Chase Ultimate Rewards".toList [infoAF, infoUnited]
      ∧ infoUnited.bonus = some (JVal.s "None".toList)
      ∧ demoPartnerNone.bonus = some (JVal.s "None".toList) :=
  ⟨by decide, by decide, by decide⟩

/-- C9 (amended): in both directions the bonus field is attached exactly when the
edge's `Bonus` value is truthy (present, non-empty, non-zero) — every attached
bonus is a truthy value, `bonus_expiration` is attached only alongside a bonus,
and every entry arises from an edge through the truthiness-gated attachment; the
sentinel strings `"None"`/`"Varies"` are truthy and therefore are attached, in
contrast with `get_transfer_bonuses`. -/
theorem lookup_bonus_truthiness (table : TransferTable) (vt : ValTable) (q : Str) :
    (∀ k infos, lookupTransferPartners table vt q "from".toList = .fromProgram k infos →
      ∀ i ∈ infos,
        (∀ b, i.bonus = some b → jvalTruthy b = true)
          ∧ (i.bonusExpiration ≠ none → i.bonus ≠ none)
          ∧ ∃ p, i = mkFromInfo vt p)
    ∧ (∀ d v infos, lookupTransferPartners table vt q "to".toList = .toProgram d v infos →
      ∀ i ∈ infos,
        (∀ b, i.bonus = some b → jvalTruthy b = true)
          ∧ (i.bonusExpiration ≠ none → i.bonus ≠ none)
          ∧ ∃ k2 p, i = mkToInfo vt k2 p) := by
  constructor
  · intro k infos h i hi
    obtain ⟨ps, hf, hinfos⟩ := lookupTransferPartners_from_inv h
    subst hinfos
    rw [mem_sortDesc, List.mem_map] at hi
    obtain ⟨p, hp, rfl⟩ := hi
    exact ⟨fun b hb => attachedBonus_truthy hb, fun hne => attachedExp_imp hne, p, rfl⟩
  · intro d v infos h i hi
    rw [lookupTransferPartners_to_inv h, collectToSources_eq, List.mem_flatMap] at hi
    obtain ⟨e, he, hi2⟩ := hi
    rw [List.mem_map] at hi2
    obtain ⟨p, hp, rfl⟩ := hi2
    exact ⟨fun b hb => attachedBonus_truthy hb, fun hne => attachedExp_imp hne, e.1, p, rfl⟩

/-- Witness for the amended C9 on the demo table: the attached United bonus is a
truthy value and stems from the attachment gate. -/
theorem lookup_bonus_truthiness_witness :
    (∀ b, infoUnited.bonus = some b → jvalTruthy b = true)
      ∧ (infoUnited.bonusExpiration ≠ none → infoUnited.bonus ≠ none)
      ∧ ∃ p, infoUnited = mkFromInfo demoVals p :=
  (lookup_bonus_truthiness demoTable demoVals "chase".toList).1
    "Chase Ultimate Rewards".toList [infoAF, infoUnited] (by decide) infoUnited (by decide)

end Miles
